import Mathlib

/-!
Verification model of the Arduino "Bendulum" library, version 1.22
(Bendulum.h / Bendulum.cpp).

Modelling conventions:

* The C type `long` is 32 bits on every Arduino target.  All `long`
  arithmetic whose intermediate values can leave 32-bit range is modelled
  on `Int` with an explicit two's-complement reduction `wrap32` applied at
  each C operation (multiplication, addition, assignment).  `wrap32` is the
  identity on `[-2^31, 2^31)`.
* The C type `unsigned long` (the `micros()` timestamps `lastTime`,
  `timeBeforeLast` and the parameter `topTime`) is modelled as `Nat`;
  callers pass values below `2^32`.  The unsigned subtraction
  `topTime - lastTime` and its assignment to a `long` are modelled by
  `rawInterval`.
* The C type `int` (`cycleCounter`, targets, `curSmoothing`, `bias`,
  `peakScale`) is modelled as unbounded `Int`: every claim-relevant value
  of these fields stays far inside machine-int range, and products of such
  values are computed in `long` (and are wrapped there).
* C `/` on `long` truncates toward zero: it is `Int.tdiv`.  C division by
  zero is undefined behaviour; in `Bendulum::incrBeatDuration`, where the
  divisor `uspb` is not guarded, the model returns `Option` (`none` for a
  zero divisor).  The division by `curSmoothing` inside `beat` is total in
  the model (`Int.tdiv _ 0 = 0`); theorems about it carry the hypothesis
  `1 ≤ curSmoothing`, which holds in every state the API can produce.
* The analog I/O of `beat()` (the sensing poll loop and the kick pulse) is
  external.  `beat` takes the captured timestamp `topTime` and the peak
  scaled coil reading `pastCoil` observed by the poll loop as inputs.
* The C++ constructor never assigns `uspb`.  The library's example sketch
  instantiates the object with static storage duration, which
  zero-initialises all members before the constructor body runs, so the
  model's construction state `Bendulum.init` has `uspb = 0`.
* The `while` loop of `Bendulum::incrBeatDuration` does not terminate when
  `2000000000 / uspb ≤ 0 < incr` (e.g. for negative `uspb`).  The model's
  `incrLoop` adds `0 < noOflow` to the loop guard, so it agrees with the C
  code on every terminating execution and its theorems carry hypotheses
  confining them to that region.
-/

/-- Run mode constants of Bendulum.h. -/
inductive RunMode
  | SETTLING
  | SCALING
  | CALIBRATING
  | CALFINISH
  | RUNNING
deriving DecidableEq, Repr

/-- Instance variables of class Bendulum (pin numbers omitted: pure I/O
configuration, never read by the algorithm). -/
structure Bendulum where
  cycleCounter : Int
  tgtSettle : Int
  tgtScale : Int
  tgtSmoothing : Int
  curSmoothing : Int
  uspb : Int
  bias : Int
  peakScale : Int
  tick : Bool
  tickAvg : Int
  tockAvg : Int
  tickPeriod : Int
  tockPeriod : Int
  lastTime : Nat
  timeBeforeLast : Nat
  runMode : RunMode
deriving DecidableEq, Repr

/-- Reduction of an integer into signed 32-bit (`long`) range
`[-2147483648, 2147483648)`, two's complement. -/
def wrap32 (n : Int) : Int :=
  (n + 2147483648) % 4294967296 - 2147483648

/-- The unsigned 32-bit difference `topTime - lastTime` converted to a
signed `long` (Bendulum.cpp line 152 etc.). -/
def rawInterval (topTime lastTime : Nat) : Int :=
  wrap32 (((topTime : Int) - (lastTime : Int)) % 4294967296)

/-- One application of the clock-bias correction,
`u += ((bias * u) + 432000) / 864000`, in 32-bit `long` arithmetic
(Bendulum.cpp lines 152-153, 170-171, 190, 194, 309, 312). -/
def biasCorrect (bias u : Int) : Int :=
  wrap32 (u + Int.tdiv (wrap32 (wrap32 (bias * u) + 432000)) 864000)

/-- The plausibility clamp: a corrected beat longer than 5 s "can't be
real" and is replaced by 0 (Bendulum.cpp lines 154-156, 172-174). -/
def clampPlausible (u : Int) : Int :=
  if u > 5000000 then 0 else u

/-- Bendulum::setRunMode (Bendulum.cpp lines 321-344). -/
def setRunMode (b : Bendulum) (mode : RunMode) : Bendulum :=
  match mode with
  | .SETTLING => { b with runMode := .SETTLING, cycleCounter := 1 }
  | .SCALING => { b with runMode := .SCALING, cycleCounter := 1, peakScale := 10 }
  | .CALIBRATING => { b with runMode := .CALIBRATING, tickAvg := 0, tockAvg := 0, curSmoothing := 1 }
  | .CALFINISH => { b with runMode := .CALFINISH }
  | .RUNNING => { b with runMode := .RUNNING }

/-- The SETTLING case of the switch in Bendulum::beat
(Bendulum.cpp lines 151-165). -/
def settleStep (b : Bendulum) (topTime : Nat) : Bendulum :=
  let u := clampPlausible (biasCorrect b.bias (rawInterval topTime b.lastTime))
  if b.tick then
    { b with uspb := u, tickPeriod := u }
  else
    let b1 := { b with uspb := u, tockPeriod := u, cycleCounter := b.cycleCounter + 1 }
    if b1.cycleCounter > b1.tgtSettle then setRunMode b1 .SCALING else b1

/-- The SCALING case of the switch in Bendulum::beat
(Bendulum.cpp lines 166-183); `pastCoil` is the peak scaled coil reading
observed by the sensing loop, compared against `maxPeak = 1`. -/
def scaleStep (b : Bendulum) (topTime : Nat) (pastCoil : Int) : Bendulum :=
  let b0 := if pastCoil > 1 then { b with peakScale := b.peakScale + 1 } else b
  let u := clampPlausible (biasCorrect b0.bias (rawInterval topTime b0.lastTime))
  if b0.tick then
    { b0 with uspb := u, tickPeriod := u }
  else
    let b1 := { b0 with uspb := u, tockPeriod := u, cycleCounter := b0.cycleCounter + 1 }
    if b1.cycleCounter > b1.tgtScale then setRunMode b1 .CALIBRATING else b1

/-- The CALIBRATING case of the switch in Bendulum::beat
(Bendulum.cpp lines 184-206). -/
def calibrateStep (b : Bendulum) (topTime : Nat) : Bendulum :=
  let b0 := if b.tickAvg = 0 ∧ b.tick = false then { b with tick := true } else b
  let b1 :=
    if b0.tick then
      let tp := biasCorrect b0.bias (rawInterval topTime b0.lastTime)
      { b0 with
        tickPeriod := tp
        tickAvg := wrap32 (b0.tickAvg + Int.tdiv (wrap32 (tp - b0.tickAvg)) b0.curSmoothing) }
    else
      let tp := biasCorrect b0.bias (rawInterval topTime b0.lastTime)
      let b2 := { b0 with
        tockPeriod := tp
        tockAvg := wrap32 (b0.tockAvg + Int.tdiv (wrap32 (tp - b0.tockAvg)) b0.curSmoothing)
        curSmoothing := b0.curSmoothing + 1 }
      if b2.curSmoothing > b2.tgtSmoothing then setRunMode b2 .CALFINISH else b2
  if b1.tockAvg = 0 then
    { b1 with uspb := b1.tickAvg }
  else
    { b1 with uspb := Int.tdiv (wrap32 (b1.tickAvg + b1.tockAvg)) 2 }

/-- The mode dispatch of Bendulum::beat (the switch statement,
Bendulum.cpp lines 150-212). -/
def beatBody (b : Bendulum) (topTime : Nat) (pastCoil : Int) : Bendulum :=
  match b.runMode with
  | .SETTLING => settleStep b topTime
  | .SCALING => scaleStep b topTime pastCoil
  | .CALIBRATING => calibrateStep b topTime
  | .CALFINISH => setRunMode b .RUNNING
  | .RUNNING => b

/-- The common tail of Bendulum::beat (lines 213-216): toggle tick,
shift the timestamps, return `uspb`. -/
def finishBeat (b : Bendulum) (topTime : Nat) : Int × Bendulum :=
  (b.uspb, { b with tick := !b.tick, timeBeforeLast := b.lastTime, lastTime := topTime })

/-- Bendulum::beat (Bendulum.cpp lines 111-217), from the timestamp
capture on: `topTime` is the captured `micros()` value and `pastCoil` the
peak scaled coil reading handed over by the sensing loop. -/
def beat (b : Bendulum) (topTime : Nat) (pastCoil : Int) : Int × Bendulum :=
  if b.lastTime = 0 then
    (0, { b with lastTime := topTime })
  else
    finishBeat (beatBody b topTime pastCoil) topTime

/-- The construction state of a Bendulum object (constructor body,
Bendulum.cpp lines 88-101; `uspb` zero-initialised by static storage). -/
def Bendulum.init : Bendulum :=
  { cycleCounter := 1
    tgtSettle := 32
    tgtScale := 128
    tgtSmoothing := 2048
    curSmoothing := 1
    uspb := 0
    bias := 0
    peakScale := 10
    tick := true
    tickAvg := 0
    tockAvg := 0
    tickPeriod := 0
    tockPeriod := 0
    lastTime := 0
    timeBeforeLast := 0
    runMode := .SETTLING }

/-- Bendulum::setTgtSettle (Bendulum.cpp lines 250-252). -/
def setTgtSettle (b : Bendulum) (interval : Int) : Bendulum :=
  { b with tgtSettle := interval }

/-- Bendulum::setTgtSmoothing (Bendulum.cpp lines 240-242). -/
def setTgtSmoothing (b : Bendulum) (interval : Int) : Bendulum :=
  { b with tgtSmoothing := interval }

/-- Bendulum::setBias (Bendulum.cpp lines 258-260). -/
def setBias (b : Bendulum) (factor : Int) : Bendulum :=
  { b with bias := factor }

/-- Bendulum::setPeakScale (Bendulum.cpp lines 270-272). -/
def setPeakScale (b : Bendulum) (scaleFactor : Int) : Bendulum :=
  { b with peakScale := scaleFactor }

/-- Bendulum::setBeatDuration (Bendulum.cpp lines 303-305). -/
def setBeatDuration (b : Bendulum) (beatDur : Int) : Bendulum :=
  { b with uspb := beatDur, tickAvg := beatDur, tockAvg := beatDur }

/-- Bendulum::getCycleCounter (Bendulum.cpp lines 230-234). -/
def getCycleCounter (b : Bendulum) : Int :=
  if b.runMode = .RUNNING then -1
  else if b.runMode = .CALIBRATING then b.curSmoothing
  else b.cycleCounter

/-- The while loop of Bendulum::incrBeatDuration (lines 308-312) followed
by the final correction (line 312).  The loop guard carries the extra
conjunct `0 < noOflow`: with it false and `noOflow < incr` the C loop
would never terminate, so the model agrees with the C code on every
terminating execution. -/
def incrLoop (noOflow incr uspb : Int) : Int :=
  if 0 < noOflow ∧ noOflow < incr then
    incrLoop noOflow (incr - noOflow) (biasCorrect noOflow uspb)
  else
    biasCorrect incr uspb
termination_by (incr - noOflow).toNat
decreasing_by omega

/-- Bendulum::incrBeatDuration (Bendulum.cpp lines 306-314).  The first
statement divides by `uspb` with no guard; division by zero is undefined
behaviour in C, modelled as `none`. -/
def incrBeatDuration (b : Bendulum) (incr : Int) : Option (Int × Bendulum) :=
  if b.uspb = 0 then none
  else
    let u := incrLoop (Int.tdiv 2000000000 b.uspb) incr b.uspb
    some (u, { b with uspb := u, tickAvg := u, tockAvg := u })

/-- Whether an integer is in signed 32-bit (`long`) range. -/
def inLong (n : Int) : Bool :=
  decide (-2147483648 ≤ n) && decide (n < 2147483648)

/-- Checker that every product and sum formed by the stepping loop of
Bendulum::incrBeatDuration stays inside 32-bit `long` range. -/
def incrLoopSafe (noOflow incr uspb : Int) : Bool :=
  if 0 < noOflow ∧ noOflow < incr then
    inLong (noOflow * uspb) && inLong (noOflow * uspb + 432000) &&
      incrLoopSafe noOflow (incr - noOflow) (biasCorrect noOflow uspb)
  else
    inLong (incr * uspb) && inLong (incr * uspb + 432000)
termination_by (incr - noOflow).toNat
decreasing_by omega

/-- Iterated beats fed by a stream of (timestamp, peak reading) inputs. -/
def iterBeat (b : Bendulum) (f : Nat → Nat × Int) : Nat → Bendulum
  | 0 => b
  | k + 1 => (beat (iterBeat b f k) (f k).1 (f k).2).2

/-- A concrete input stream of nonzero timestamps, for evaluating the
iterated-beat theorems. -/
def sevenApart (k : Nat) : Nat × Int :=
  (k + 7, 0)

/-! ## Arithmetic helper lemmas -/

theorem wrap32_eq_self {n : Int} (h1 : -2147483648 ≤ n) (h2 : n < 2147483648) :
    wrap32 n = n := by
  unfold wrap32
  omega

theorem tdiv_abs_le (a n : Int) : (Int.tdiv a n).natAbs ≤ a.natAbs := by
  rw [Int.natAbs_tdiv]
  exact Nat.div_le_self _ _

theorem tdiv_864000_bound {x : Int} (h1 : -2147483648 ≤ x) (h2 : x < 2147483648) :
    -2485 ≤ Int.tdiv x 864000 ∧ Int.tdiv x 864000 ≤ 2485 := by
  have h : (Int.tdiv x 864000).natAbs = x.natAbs / 864000 := Int.natAbs_tdiv x 864000
  omega

theorem tdiv_nonpos_of_nonpos {a n : Int} (ha : a ≤ 0) (hn : 0 ≤ n) :
    Int.tdiv a n ≤ 0 := by
  have h2 : 0 ≤ Int.tdiv (-a) n := Int.tdiv_nonneg (by omega) hn
  rw [Int.neg_tdiv] at h2
  omega

theorem avg_update_eq {a s n B : Int} (ha0 : 0 ≤ a) (haB : a ≤ B) (hs0 : 0 ≤ s)
    (hsB : s ≤ B) (hB : B < 2147483648) (hn : 1 ≤ n) :
    wrap32 (a + Int.tdiv (wrap32 (s - a)) n) = a + Int.tdiv (s - a) n ∧
    0 ≤ a + Int.tdiv (s - a) n ∧ a + Int.tdiv (s - a) n ≤ B := by
  have hw : wrap32 (s - a) = s - a := wrap32_eq_self (by omega) (by omega)
  rw [hw]
  have habs : (Int.tdiv (s - a) n).natAbs ≤ (s - a).natAbs := tdiv_abs_le _ _
  rcases le_or_lt a s with hc | hc
  · have hd0 : 0 ≤ Int.tdiv (s - a) n := Int.tdiv_nonneg (by omega) (by omega)
    exact ⟨wrap32_eq_self (by omega) (by omega), by omega, by omega⟩
  · have hd0 : Int.tdiv (s - a) n ≤ 0 := tdiv_nonpos_of_nonpos (by omega) (by omega)
    exact ⟨wrap32_eq_self (by omega) (by omega), by omega, by omega⟩

/-! ## Claim theorems -/

/-- Claim C4: for every target mode, setRunMode sets the mode and resets
exactly the state that mode owns — SETTLING resets the cycle counter to 1,
SCALING resets the cycle counter to 1 and peakScale to 10, CALIBRATING
resets both averages to 0 and the smoothing counter to 1, CALFINISH and
RUNNING reset nothing — and every other field (bias, beat duration, tick
flag, timestamps, targets, periods) is unchanged. -/
theorem setRunMode_resets_spec (b : Bendulum) (m : RunMode) :
    (setRunMode b m).runMode = m ∧
    (setRunMode b m).bias = b.bias ∧
    (setRunMode b m).uspb = b.uspb ∧
    (setRunMode b m).tick = b.tick ∧
    (setRunMode b m).lastTime = b.lastTime ∧
    (setRunMode b m).timeBeforeLast = b.timeBeforeLast ∧
    (setRunMode b m).tgtSettle = b.tgtSettle ∧
    (setRunMode b m).tgtScale = b.tgtScale ∧
    (setRunMode b m).tgtSmoothing = b.tgtSmoothing ∧
    (setRunMode b m).tickPeriod = b.tickPeriod ∧
    (setRunMode b m).tockPeriod = b.tockPeriod ∧
    (setRunMode b m).cycleCounter =
      (if m = .SETTLING ∨ m = .SCALING then 1 else b.cycleCounter) ∧
    (setRunMode b m).peakScale = (if m = .SCALING then 10 else b.peakScale) ∧
    (setRunMode b m).tickAvg = (if m = .CALIBRATING then 0 else b.tickAvg) ∧
    (setRunMode b m).tockAvg = (if m = .CALIBRATING then 0 else b.tockAvg) ∧
    (setRunMode b m).curSmoothing = (if m = .CALIBRATING then 1 else b.curSmoothing) := by
  cases m <;> simp [setRunMode]

/-- Claim C5: the very first beat (no prior timestamp recorded) returns 0,
records the captured timestamp as the last event time, and changes no
other state: it does not advance the phase counter, toggle the tick phase,
or modify any average. -/
theorem first_beat_spec (b : Bendulum) (t : Nat) (p : Int) (h : b.lastTime = 0) :
    (beat b t p).1 = 0 ∧
    (beat b t p).2.lastTime = t ∧
    (beat b t p).2.cycleCounter = b.cycleCounter ∧
    (beat b t p).2.curSmoothing = b.curSmoothing ∧
    (beat b t p).2.tick = b.tick ∧
    (beat b t p).2.tickAvg = b.tickAvg ∧
    (beat b t p).2.tockAvg = b.tockAvg ∧
    (beat b t p).2.uspb = b.uspb ∧
    (beat b t p).2.peakScale = b.peakScale ∧
    (beat b t p).2.runMode = b.runMode ∧
    (beat b t p).2.timeBeforeLast = b.timeBeforeLast := by
  simp [beat, h]

/-- Witness for C5 at the construction state and timestamp 42. -/
theorem first_beat_spec_witness :
    (beat Bendulum.init 42 0).1 = 0 ∧
    (beat Bendulum.init 42 0).2.lastTime = 42 ∧
    (beat Bendulum.init 42 0).2.cycleCounter = Bendulum.init.cycleCounter ∧
    (beat Bendulum.init 42 0).2.curSmoothing = Bendulum.init.curSmoothing ∧
    (beat Bendulum.init 42 0).2.tick = Bendulum.init.tick ∧
    (beat Bendulum.init 42 0).2.tickAvg = Bendulum.init.tickAvg ∧
    (beat Bendulum.init 42 0).2.tockAvg = Bendulum.init.tockAvg ∧
    (beat Bendulum.init 42 0).2.uspb = Bendulum.init.uspb ∧
    (beat Bendulum.init 42 0).2.peakScale = Bendulum.init.peakScale ∧
    (beat Bendulum.init 42 0).2.runMode = Bendulum.init.runMode ∧
    (beat Bendulum.init 42 0).2.timeBeforeLast = Bendulum.init.timeBeforeLast :=
  first_beat_spec Bendulum.init 42 0 (by decide)

/-- Claim C7 counterexample: a state in CALFINISH mode with no prior
timestamp recorded (reached by forcing the mode before the first beat)
does not switch to RUNNING on the next beat, so the claim's "for every
state in CALFINISH mode" fails as stated. -/
theorem calfinish_no_prior_timestamp_cex :
    (setRunMode Bendulum.init .CALFINISH).runMode = .CALFINISH ∧
    (beat (setRunMode Bendulum.init .CALFINISH) 5 0).2.runMode ≠ .RUNNING ∧
    (beat (setRunMode Bendulum.init .CALFINISH) 5 0).2.runMode = .CALFINISH := by
  refine ⟨by decide, by decide, by decide⟩

/-- Claim C7 (amended): for every state in CALFINISH mode that has a prior
timestamp recorded, the very next beat switches the mode to RUNNING and
leaves the beat duration unchanged (the returned duration is the unchanged
beat duration), so CALFINISH is observable for exactly one measured beat;
a beat with no prior timestamp only records the timestamp and stays in
CALFINISH. -/
theorem calfinish_transient_amended (b : Bendulum) (t : Nat) (p : Int)
    (hm : b.runMode = .CALFINISH) :
    (b.lastTime ≠ 0 →
      (beat b t p).2.runMode = .RUNNING ∧
      (beat b t p).2.uspb = b.uspb ∧
      (beat b t p).1 = b.uspb) ∧
    (b.lastTime = 0 →
      (beat b t p).2.runMode = .CALFINISH ∧ (beat b t p).2.lastTime = t) := by
  constructor
  · intro hl
    simp [beat, hl, beatBody, hm, setRunMode, finishBeat]
  · intro hl
    simp [beat, hl, hm]

/-- Witness for C7: a CALFINISH state with a recorded timestamp advances
to RUNNING on the next beat with the beat duration unchanged. -/
theorem calfinish_transient_amended_witness :
    (beat (beat (setRunMode Bendulum.init .CALFINISH) 7 0).2 9 0).2.runMode = .RUNNING ∧
    (beat (beat (setRunMode Bendulum.init .CALFINISH) 7 0).2 9 0).2.uspb =
      (beat (setRunMode Bendulum.init .CALFINISH) 7 0).2.uspb ∧
    (beat (beat (setRunMode Bendulum.init .CALFINISH) 7 0).2 9 0).1 =
      (beat (setRunMode Bendulum.init .CALFINISH) 7 0).2.uspb :=
  (calfinish_transient_amended (beat (setRunMode Bendulum.init .CALFINISH) 7 0).2 9 0
    (by decide)).1 (by decide)

/-- Claim C10: incrBeatDuration divides by the current beat duration with
no guard, so its division error branch is unreachable exactly when the
beat duration is nonzero; on the construction state (beat duration 0,
nothing measured, setBeatDuration never used) the precondition is
violated, and it is still violated after the first (unmeasured) beat. -/
theorem incrBeatDuration_div_guard_spec (b : Bendulum) (incr : Int) :
    ((incrBeatDuration b incr).isSome ↔ b.uspb ≠ 0) ∧
    Bendulum.init.uspb = 0 ∧
    incrBeatDuration Bendulum.init incr = none ∧
    (∀ t : Nat, ∀ p : Int, incrBeatDuration (beat Bendulum.init t p).2 incr = none) := by
  refine ⟨?_, rfl, rfl, ?_⟩
  · unfold incrBeatDuration
    by_cases h : b.uspb = 0 <;> simp [h]
  · intro t p
    unfold incrBeatDuration
    simp [beat, Bendulum.init]

theorem wrap32_mem (n : Int) : -2147483648 ≤ wrap32 n ∧ wrap32 n < 2147483648 := by
  unfold wrap32
  omega

theorem biasCorrect_mem (x y : Int) :
    -2147483648 ≤ biasCorrect x y ∧ biasCorrect x y < 2147483648 := by
  unfold biasCorrect
  exact wrap32_mem _

/-- Claim C1 counterexample: at bias 537 and raw interval 4,000,000 µs the
product `bias * uspb` leaves 32-bit `long` range, so the value computed by
beat differs from `r + round(bias*r/864000)`: the code yields 3,997,516
where the formula yields 4,002,486. -/
theorem biasCorrection_formula_cex :
    (beat (setBias (beat Bendulum.init 100 0).2 537) 4000100 0).1 =
      biasCorrect 537 4000000 ∧
    biasCorrect 537 4000000 = 3997516 ∧
    4000000 + Int.tdiv (537 * 4000000 + 432000) 864000 = 4002486 ∧
    biasCorrect 537 4000000 ≠
      4000000 + Int.tdiv (537 * 4000000 + 432000) 864000 := by
  refine ⟨by decide, by decide, by decide, by decide⟩

/-- Claim C1 (amended): for every bias value b and raw interval r with
0 ≤ r ≤ 5,000,000 µs, provided the product b·r stays inside 32-bit `long`
range (-2^31 ≤ b·r and b·r + 432000 < 2^31), the bias-corrected interval
computed by beat equals r + (b·r + 432000) / 864000 with truncating
division — i.e. rounding by adding half the divisor 432000 before integer
division — and the exact (pre-rounding) correction b·r/864000 is linear
in b for fixed r.  Without the no-overflow proviso the claim fails (see
the counterexample). -/
theorem biasCorrect_formula_noOverflow (bias r : Int)
    (hr0 : 0 ≤ r) (hr5 : r ≤ 5000000)
    (hlo : -2147483648 ≤ bias * r) (hhi : bias * r + 432000 < 2147483648) :
    biasCorrect bias r = r + Int.tdiv (bias * r + 432000) 864000 ∧
    ∀ b1 b2 : Int,
      (((b1 + b2) * r : Int) : ℚ) / 864000 =
        ((b1 * r : Int) : ℚ) / 864000 + ((b2 * r : Int) : ℚ) / 864000 := by
  constructor
  · unfold biasCorrect
    rw [wrap32_eq_self hlo (by omega)]
    rw [wrap32_eq_self (n := bias * r + 432000) (by omega) hhi]
    have hb := tdiv_864000_bound (x := bias * r + 432000) (by omega) hhi
    exact wrap32_eq_self (by omega) (by omega)
  · intro b1 b2
    push_cast
    ring

/-- Witness for C1 at the spec's own example: bias +10 tenths of a second
per day on a raw interval of 1,000,000 µs gives 1,000,012 µs. -/
theorem biasCorrect_formula_noOverflow_witness :
    biasCorrect 10 1000000 = 1000000 + Int.tdiv (10 * 1000000 + 432000) 864000 :=
  (biasCorrect_formula_noOverflow 10 1000000 (by decide) (by decide) (by decide)
    (by decide)).1

/-- Claim C2 counterexample: in SETTLING mode with a previous beat
duration of 1,000,000 µs, a measured interval of 7,000,000 µs (> 5 s) is
indeed discarded, but the previous beat duration is not retained: beat
sets and returns 0. -/
theorem implausible_interval_cex :
    (setBeatDuration (beat Bendulum.init 100 0).2 1000000).runMode = .SETTLING ∧
    (setBeatDuration (beat Bendulum.init 100 0).2 1000000).uspb = 1000000 ∧
    (beat (setBeatDuration (beat Bendulum.init 100 0).2 1000000) 7000100 0).1 = 0 ∧
    (beat (setBeatDuration (beat Bendulum.init 100 0).2 1000000) 7000100 0).2.uspb = 0 := by
  refine ⟨by decide, by decide, by decide, by decide⟩

/-- Claim C2 (amended): when the bias-corrected measured interval exceeds
5,000,000 µs, a SETTLING or SCALING beat replaces the beat duration by 0
(returning 0) rather than retaining the previous estimate, and a
CALIBRATING beat applies no plausibility check at all: the over-long
sample is still averaged in. -/
theorem implausible_interval_amended (b : Bendulum) (t : Nat) (p : Int)
    (hl : b.lastTime ≠ 0)
    (hs : biasCorrect b.bias (rawInterval t b.lastTime) > 5000000) :
    ((b.runMode = .SETTLING ∨ b.runMode = .SCALING) →
      (beat b t p).1 = 0 ∧ (beat b t p).2.uspb = 0) ∧
    (b.runMode = .CALIBRATING → (b.tick = true ∨ b.tickAvg = 0) →
      1 ≤ b.curSmoothing → 0 ≤ b.tickAvg → b.tickAvg < 2147483648 →
      (beat b t p).2.tickAvg =
        b.tickAvg +
          Int.tdiv (biasCorrect b.bias (rawInterval t b.lastTime) - b.tickAvg)
            b.curSmoothing) := by
  constructor
  · rintro (hm | hm)
    · by_cases ht : b.tick <;>
        by_cases hc : b.tgtSettle < b.cycleCounter + 1 <;>
          simp [beat, hl, beatBody, hm, settleStep, finishBeat, clampPlausible,
            hs, ht, hc, setRunMode]
    · by_cases hp : p > 1 <;>
        by_cases ht : b.tick <;>
          by_cases hc : b.tgtScale < b.cycleCounter + 1 <;>
            simp [beat, hl, beatBody, hm, scaleStep, finishBeat, clampPlausible,
              hs, hp, ht, hc, setRunMode]
  · intro hm htt hn ha0 ha1
    have hsm := biasCorrect_mem b.bias (rawInterval t b.lastTime)
    have key := @avg_update_eq b.tickAvg (biasCorrect b.bias (rawInterval t b.lastTime))
      b.curSmoothing 2147483647 ha0 (by omega) (by omega) (by omega) (by omega) hn
    by_cases ht : b.tick
    · have hb0 : ¬(b.tickAvg = 0 ∧ b.tick = false) := by simp [ht]
      simp [beat, hl, beatBody, hm, calibrateStep, finishBeat, hb0, ht, setRunMode,
        apply_ite Bendulum.tickAvg, key.1]
    · have ha : b.tickAvg = 0 := htt.resolve_left (by simp [ht])
      have hb0 : b.tickAvg = 0 ∧ b.tick = false := ⟨ha, by simp [ht]⟩
      rw [ha] at key
      simp only [zero_add, sub_zero] at key
      simp [beat, hl, beatBody, hm, calibrateStep, finishBeat, hb0, ht, setRunMode,
        apply_ite Bendulum.tickAvg, key.1]

/-- Witness for C2 (amended): a 7,000,000 µs interval zeroes the beat
duration in SETTLING, and in CALIBRATING the same over-long sample is
averaged into the tick average unchecked. -/
theorem implausible_interval_amended_witness :
    ((beat (setBeatDuration (beat Bendulum.init 100 0).2 1000000) 7000100 0).1 = 0 ∧
      (beat (setBeatDuration (beat Bendulum.init 100 0).2 1000000) 7000100 0).2.uspb = 0) ∧
    (beat (setRunMode (beat Bendulum.init 100 0).2 .CALIBRATING) 7000100 0).2.tickAvg =
      0 + Int.tdiv (biasCorrect 0 (rawInterval 7000100 100) - 0) 1 := by
  constructor
  · exact (implausible_interval_amended
      (setBeatDuration (beat Bendulum.init 100 0).2 1000000) 7000100 0
      (by decide) (by decide)).1 (Or.inl (by decide))
  · exact (implausible_interval_amended
      (setRunMode (beat Bendulum.init 100 0).2 .CALIBRATING) 7000100 0
      (by decide) (by decide)).2 (by decide) (Or.inl (by decide))
      (by decide) (by decide) (by decide)

/-- Claim C8 counterexample: a beat executed in SETTLING mode can mutate
peakScale.  From a state in SETTLING with peakScale forced to 50 (via
setPeakScale) whose next tock completes the settle target, beat resets
peakScale to 10 while the mode at entry is SETTLING, contradicting
"beat() never mutates peakScale in any mode other than SCALING". -/
theorem peakScale_reset_outside_scaling_cex :
    (setPeakScale (beat (beat (setTgtSettle Bendulum.init 1) 100 0).2 200 0).2 50).runMode =
      .SETTLING ∧
    (setPeakScale (beat (beat (setTgtSettle Bendulum.init 1) 100 0).2 200 0).2 50).peakScale =
      50 ∧
    (beat (setPeakScale (beat (beat (setTgtSettle Bendulum.init 1) 100 0).2 200 0).2 50)
        300 0).2.peakScale = 10 := by
  refine ⟨by decide, by decide, by decide⟩

/-- Claim C8 (amended): across beats, peakScale is monotonically
non-decreasing while the mode is SCALING — on a measured SCALING beat it
increments by exactly one when the scaled peak reading exceeds the fixed
ceiling 1 and is unchanged otherwise — and beat leaves peakScale unchanged
in CALIBRATING, CALFINISH and RUNNING; the one mutation outside SCALING is
that a SETTLING beat entering SCALING resets peakScale to 10. -/
theorem peakScale_mutation_amended (b : Bendulum) (t : Nat) (p : Int) :
    (b.runMode = .SCALING → b.peakScale ≤ (beat b t p).2.peakScale) ∧
    (b.runMode = .SCALING → b.lastTime ≠ 0 →
      (beat b t p).2.peakScale = (if p > 1 then b.peakScale + 1 else b.peakScale)) ∧
    ((b.runMode = .CALIBRATING ∨ b.runMode = .CALFINISH ∨ b.runMode = .RUNNING) →
      (beat b t p).2.peakScale = b.peakScale) ∧
    (b.runMode = .SETTLING →
      (beat b t p).2.peakScale = b.peakScale ∨ (beat b t p).2.peakScale = 10) := by
  by_cases hl : b.lastTime = 0
  · refine ⟨fun _ => ?_, fun _ hl2 => absurd hl hl2, fun _ => ?_, fun _ => Or.inl ?_⟩ <;>
      simp [beat, hl]
  · refine ⟨fun hm => ?_, fun hm _ => ?_, fun hm => ?_, fun hm => ?_⟩
    · by_cases hp : p > 1 <;>
        by_cases ht : b.tick <;>
          by_cases hc : b.tgtScale < b.cycleCounter + 1 <;>
            simp [beat, hl, beatBody, hm, scaleStep, finishBeat, hp, ht, hc, setRunMode]
    · by_cases hp : p > 1 <;>
        by_cases ht : b.tick <;>
          by_cases hc : b.tgtScale < b.cycleCounter + 1 <;>
            simp [beat, hl, beatBody, hm, scaleStep, finishBeat, hp, ht, hc, setRunMode]
    · rcases hm with hm | hm | hm
      · by_cases hb0 : b.tickAvg = 0 ∧ b.tick = false <;>
          by_cases ht : b.tick <;>
            by_cases hc : b.tgtSmoothing < b.curSmoothing + 1 <;>
              simp [beat, hl, beatBody, hm, calibrateStep, finishBeat, hb0, ht, hc,
                setRunMode, apply_ite Bendulum.peakScale]
      · simp [beat, hl, beatBody, hm, setRunMode, finishBeat]
      · simp [beat, hl, beatBody, hm, finishBeat]
    · by_cases ht : b.tick <;>
        by_cases hc : b.tgtSettle < b.cycleCounter + 1 <;>
          simp [beat, hl, beatBody, hm, settleStep, finishBeat, ht, hc, setRunMode]

/-- Witness for C8 (amended), at a measured SCALING beat whose scaled peak
reading 3 exceeds the ceiling: peakScale increments by one. -/
theorem peakScale_mutation_amended_witness :
    (beat (setRunMode (beat Bendulum.init 100 0).2 .SCALING) 200 3).2.peakScale =
      (if (3 : Int) > 1 then
        (setRunMode (beat Bendulum.init 100 0).2 .SCALING).peakScale + 1
      else (setRunMode (beat Bendulum.init 100 0).2 .SCALING).peakScale) :=
  (peakScale_mutation_amended (setRunMode (beat Bendulum.init 100 0).2 .SCALING) 200 3).2.1
    (by decide) (by decide)

/-- Claim C3: during CALIBRATING each bias-corrected half-cycle duration
updates its running average by avg += (sample - avg) / n, with n starting
at 1 (so at construction and on entering CALIBRATING) and incrementing by
one exactly when a tock completes, up to the smoothing target; if the
beat arrives as a tock while tickAvg is zero the phase is forced to
tick-first (the beat is processed as a tick); the reported beat duration
is tickAvg alone while tockAvg is zero and the mean (tickAvg+tockAvg)/2
otherwise; and when n exceeds the smoothing target the mode becomes
CALFINISH.  Stated for averages and samples in the plausible range
0..5,000,000 µs, where the 32-bit arithmetic is exact. -/
theorem calibrating_beat_spec (b : Bendulum) (t : Nat) (p : Int)
    (hm : b.runMode = .CALIBRATING) (hl : b.lastTime ≠ 0)
    (hn : 1 ≤ b.curSmoothing)
    (hta0 : 0 ≤ b.tickAvg) (hta5 : b.tickAvg ≤ 5000000)
    (hto0 : 0 ≤ b.tockAvg) (hto5 : b.tockAvg ≤ 5000000)
    (hs0 : 0 ≤ biasCorrect b.bias (rawInterval t b.lastTime))
    (hs5 : biasCorrect b.bias (rawInterval t b.lastTime) ≤ 5000000) :
    ((b.tick = true ∨ b.tickAvg = 0) →
      (beat b t p).2.tickAvg =
        b.tickAvg +
          Int.tdiv (biasCorrect b.bias (rawInterval t b.lastTime) - b.tickAvg)
            b.curSmoothing ∧
      (beat b t p).2.tockAvg = b.tockAvg ∧
      (beat b t p).2.curSmoothing = b.curSmoothing ∧
      (beat b t p).2.runMode = .CALIBRATING ∧
      (beat b t p).2.tick = false) ∧
    (b.tick = false → b.tickAvg ≠ 0 →
      (beat b t p).2.tockAvg =
        b.tockAvg +
          Int.tdiv (biasCorrect b.bias (rawInterval t b.lastTime) - b.tockAvg)
            b.curSmoothing ∧
      (beat b t p).2.tickAvg = b.tickAvg ∧
      (beat b t p).2.curSmoothing = b.curSmoothing + 1 ∧
      (beat b t p).2.runMode =
        (if b.curSmoothing + 1 > b.tgtSmoothing then RunMode.CALFINISH
         else RunMode.CALIBRATING) ∧
      (beat b t p).2.tick = true) ∧
    ((beat b t p).1 =
      (if (beat b t p).2.tockAvg = 0 then (beat b t p).2.tickAvg
       else Int.tdiv ((beat b t p).2.tickAvg + (beat b t p).2.tockAvg) 2)) ∧
    Bendulum.init.curSmoothing = 1 ∧
    (setRunMode b .CALIBRATING).curSmoothing = 1 := by
  have key1 := @avg_update_eq b.tickAvg (biasCorrect b.bias (rawInterval t b.lastTime))
    b.curSmoothing 5000000 hta0 hta5 hs0 hs5 (by norm_num) hn
  have key2 := @avg_update_eq b.tockAvg (biasCorrect b.bias (rawInterval t b.lastTime))
    b.curSmoothing 5000000 hto0 hto5 hs0 hs5 (by norm_num) hn
  refine ⟨?_, ?_, ?_, rfl, by simp [setRunMode]⟩
  · intro htt
    by_cases ht : b.tick
    · have hb0 : ¬(b.tickAvg = 0 ∧ b.tick = false) := by simp [ht]
      simp [beat, hl, beatBody, hm, calibrateStep, finishBeat, hb0, ht, key1.1,
        apply_ite Bendulum.tickAvg, apply_ite Bendulum.tockAvg,
        apply_ite Bendulum.curSmoothing, apply_ite Bendulum.runMode,
        apply_ite Bendulum.tick]
    · have ha : b.tickAvg = 0 := htt.resolve_left (by simp [ht])
      have hb0 : b.tickAvg = 0 ∧ b.tick = false := ⟨ha, by simp [ht]⟩
      rw [ha] at key1
      simp only [zero_add, sub_zero] at key1
      simp [beat, hl, beatBody, hm, calibrateStep, finishBeat, hb0, ht, ha, key1.1,
        apply_ite Bendulum.tickAvg, apply_ite Bendulum.tockAvg,
        apply_ite Bendulum.curSmoothing, apply_ite Bendulum.runMode,
        apply_ite Bendulum.tick]
  · intro ht ha
    by_cases hc : b.tgtSmoothing < b.curSmoothing + 1 <;>
      simp [beat, hl, beatBody, hm, calibrateStep, finishBeat, ha, ht, hc, key2.1,
        setRunMode, apply_ite Bendulum.tickAvg, apply_ite Bendulum.tockAvg,
        apply_ite Bendulum.curSmoothing, apply_ite Bendulum.runMode,
        apply_ite Bendulum.tick]
  · by_cases ht : b.tick
    · have hb0 : ¬(b.tickAvg = 0 ∧ b.tick = false) := by simp [ht]
      have hsum : wrap32 ((b.tickAvg +
          Int.tdiv (biasCorrect b.bias (rawInterval t b.lastTime) - b.tickAvg)
            b.curSmoothing) + b.tockAvg) =
          (b.tickAvg +
            Int.tdiv (biasCorrect b.bias (rawInterval t b.lastTime) - b.tickAvg)
              b.curSmoothing) + b.tockAvg :=
        wrap32_eq_self (by omega) (by omega)
      by_cases hz : b.tockAvg = 0 <;>
        simp [beat, hl, beatBody, hm, calibrateStep, finishBeat, hb0, ht, hz, key1.1,
          hsum, apply_ite Bendulum.tickAvg, apply_ite Bendulum.tockAvg,
          apply_ite Bendulum.uspb]
    · by_cases ha : b.tickAvg = 0
      · have hb0 : b.tickAvg = 0 ∧ b.tick = false := ⟨ha, by simp [ht]⟩
        rw [ha] at key1
        simp only [zero_add, sub_zero] at key1
        have hsum : wrap32 (Int.tdiv (biasCorrect b.bias (rawInterval t b.lastTime))
            b.curSmoothing + b.tockAvg) =
            Int.tdiv (biasCorrect b.bias (rawInterval t b.lastTime)) b.curSmoothing +
              b.tockAvg :=
          wrap32_eq_self (by omega) (by omega)
        by_cases hz : b.tockAvg = 0 <;>
          simp [beat, hl, beatBody, hm, calibrateStep, finishBeat, hb0, ht, ha, hz,
            key1.1, hsum, apply_ite Bendulum.tickAvg, apply_ite Bendulum.tockAvg,
            apply_ite Bendulum.uspb]
      · have hsum : wrap32 (b.tickAvg + (b.tockAvg +
            Int.tdiv (biasCorrect b.bias (rawInterval t b.lastTime) - b.tockAvg)
              b.curSmoothing)) =
            b.tickAvg + (b.tockAvg +
              Int.tdiv (biasCorrect b.bias (rawInterval t b.lastTime) - b.tockAvg)
                b.curSmoothing) :=
          wrap32_eq_self (by omega) (by omega)
        by_cases hc : b.tgtSmoothing < b.curSmoothing + 1 <;>
          by_cases hz : b.tockAvg +
              Int.tdiv (biasCorrect b.bias (rawInterval t b.lastTime) - b.tockAvg)
                b.curSmoothing = 0 <;>
            simp [beat, hl, beatBody, hm, calibrateStep, finishBeat, ha, ht, hc, hz,
              key2.1, hsum, setRunMode, apply_ite Bendulum.tickAvg,
              apply_ite Bendulum.tockAvg, apply_ite Bendulum.uspb]

/-- Witness for C3: the first calibration beat (a tick) moves the tick
average from 0 toward the 1,000,000 µs sample by (sample - 0)/1. -/
theorem calibrating_beat_spec_witness :
    (beat (setRunMode (beat Bendulum.init 100 0).2 .CALIBRATING) 1000100 0).2.tickAvg =
      (setRunMode (beat Bendulum.init 100 0).2 .CALIBRATING).tickAvg +
        Int.tdiv
          (biasCorrect (setRunMode (beat Bendulum.init 100 0).2 .CALIBRATING).bias
              (rawInterval 1000100
                (setRunMode (beat Bendulum.init 100 0).2 .CALIBRATING).lastTime) -
            (setRunMode (beat Bendulum.init 100 0).2 .CALIBRATING).tickAvg)
          (setRunMode (beat Bendulum.init 100 0).2 .CALIBRATING).curSmoothing :=
  ((calibrating_beat_spec (setRunMode (beat Bendulum.init 100 0).2 .CALIBRATING) 1000100 0
      (by decide) (by decide) (by decide) (by decide) (by decide) (by decide) (by decide)
      (by decide) (by decide)).1 (Or.inl (by decide))).1

theorem settle_beat_fields (b : Bendulum) (t : Nat) (p : Int)
    (hm : b.runMode = .SETTLING) (hl : b.lastTime ≠ 0) :
    (beat b t p).2.lastTime = t ∧
    (beat b t p).2.tgtSettle = b.tgtSettle ∧
    (b.tick = true →
      (beat b t p).2.runMode = .SETTLING ∧
      (beat b t p).2.cycleCounter = b.cycleCounter ∧
      (beat b t p).2.tick = false) ∧
    (b.tick = false → ¬(b.tgtSettle < b.cycleCounter + 1) →
      (beat b t p).2.runMode = .SETTLING ∧
      (beat b t p).2.cycleCounter = b.cycleCounter + 1 ∧
      (beat b t p).2.tick = true) ∧
    (b.tick = false → b.tgtSettle < b.cycleCounter + 1 →
      (beat b t p).2.runMode = .SCALING ∧ (beat b t p).2.tick = true) := by
  by_cases ht : b.tick <;>
    by_cases hc : b.tgtSettle < b.cycleCounter + 1 <;>
      simp [beat, hl, beatBody, hm, settleStep, finishBeat, ht, hc, setRunMode]

theorem settleInv (b : Bendulum) (f : Nat → Nat × Int) (N : Nat)
    (hm : b.runMode = .SETTLING) (hc : b.cycleCounter = 1) (htick : b.tick = true)
    (hN : b.tgtSettle = (N : Int)) (hl : b.lastTime ≠ 0)
    (hts : ∀ k, (f k).1 ≠ 0) :
    ∀ j, j < 2 * N →
      (iterBeat b f j).runMode = .SETTLING ∧
      (iterBeat b f j).tgtSettle = (N : Int) ∧
      (iterBeat b f j).lastTime ≠ 0 ∧
      (iterBeat b f j).tick = decide (j % 2 = 0) ∧
      (iterBeat b f j).cycleCounter = 1 + ((j / 2 : Nat) : Int) := by
  intro j
  induction j with
  | zero =>
    intro _
    simp only [iterBeat]
    exact ⟨hm, hN, hl, by simp [htick], by simp [hc]⟩
  | succ j ih =>
    intro hj
    obtain ⟨i1, i2, i3, i4, i5⟩ := ih (by omega)
    have fields := settle_beat_fields (iterBeat b f j) (f j).1 (f j).2 i1 i3
    simp only [iterBeat]
    by_cases hp : j % 2 = 0
    · have ht : (iterBeat b f j).tick = true := by rw [i4]; simp [hp]
      have step := fields.2.2.1 ht
      refine ⟨step.1, fields.2.1.trans i2, ?_, ?_, ?_⟩
      · rw [fields.1]; exact hts j
      · rw [step.2.2]
        have h1 : (j + 1) % 2 = 1 := by omega
        simp [h1]
      · rw [step.2.1, i5]
        have h2 : (j + 1) / 2 = j / 2 := by omega
        rw [h2]
    · have ht : (iterBeat b f j).tick = false := by rw [i4]; simp [hp]
      have hj2 : j % 2 = 1 := by omega
      have hnc : ¬((iterBeat b f j).tgtSettle < (iterBeat b f j).cycleCounter + 1) := by
        rw [i2, i5]; omega
      have step := fields.2.2.2.1 ht hnc
      refine ⟨step.1, fields.2.1.trans i2, ?_, ?_, ?_⟩
      · rw [fields.1]; exact hts j
      · rw [step.2.2]
        have h1 : (j + 1) % 2 = 0 := by omega
        simp [h1]
      · rw [step.2.1, i5]
        have h2 : (j + 1) / 2 = j / 2 + 1 := by omega
        rw [h2]
        push_cast
        ring

/-- Claim C6: starting in SETTLING with the settle target N (at least 1),
the cycle counter at 1 and a tick awaited — the constructor state of
those fields — the engine stays in SETTLING for the next 2N measured
beats (N full cycles) and is in SCALING immediately after the 2N-th
measured beat, i.e. on completing the N-th tock. -/
theorem settling_duration_spec (b : Bendulum) (f : Nat → Nat × Int) (N : Nat)
    (hm : b.runMode = .SETTLING) (hc : b.cycleCounter = 1) (htick : b.tick = true)
    (hN : b.tgtSettle = (N : Int)) (hN1 : 1 ≤ N) (hl : b.lastTime ≠ 0)
    (hts : ∀ k, (f k).1 ≠ 0) :
    (∀ j, j < 2 * N → (iterBeat b f j).runMode = .SETTLING) ∧
    (iterBeat b f (2 * N)).runMode = .SCALING := by
  have inv := settleInv b f N hm hc htick hN hl hts
  refine ⟨fun j hj => (inv j hj).1, ?_⟩
  obtain ⟨i1, i2, i3, i4, i5⟩ := inv (2 * N - 1) (by omega)
  have ht : (iterBeat b f (2 * N - 1)).tick = false := by
    rw [i4]
    have h1 : (2 * N - 1) % 2 = 1 := by omega
    simp [h1]
  have fields := settle_beat_fields (iterBeat b f (2 * N - 1))
    (f (2 * N - 1)).1 (f (2 * N - 1)).2 i1 i3
  have hcond : (iterBeat b f (2 * N - 1)).tgtSettle <
      (iterBeat b f (2 * N - 1)).cycleCounter + 1 := by
    rw [i2, i5]; omega
  have h2N : 2 * N = (2 * N - 1) + 1 := by omega
  rw [h2N]
  simp only [iterBeat]
  exact (fields.2.2.2.2 ht hcond).1

/-- Witness for C6 with settle target 1: after the two measured beats of
the single settle cycle, the engine is in SCALING. -/
theorem settling_duration_spec_witness :
    (iterBeat (beat (setTgtSettle Bendulum.init 1) 5 0).2 sevenApart
      (2 * 1)).runMode = .SCALING :=
  (settling_duration_spec (beat (setTgtSettle Bendulum.init 1) 5 0).2
    sevenApart 1 (by decide) (by decide) (by decide) (by decide)
    (by decide) (by decide) (fun k => by show k + 7 ≠ 0; omega)).2

theorem incrLoop_no_iter {noOflow incr uspb : Int} (h : incr ≤ noOflow ∨ noOflow ≤ 0) :
    incrLoop noOflow incr uspb = biasCorrect incr uspb := by
  rw [incrLoop.eq_def]
  rw [if_neg (by omega)]

/-- Claim C9 counterexample: with beat duration 1,000 µs (settable via
setBeatDuration) and requested adjustment 5,000,000, the loop's second
pass forms the product 2,000,000 · 3,315 = 6,630,000,000, which leaves
32-bit `long` range: the bounded stepping does not prevent intermediate
overflow. -/
theorem incrBeatDuration_overflow_cex :
    (setBeatDuration Bendulum.init 1000).uspb = 1000 ∧
    Int.tdiv 2000000000 (setBeatDuration Bendulum.init 1000).uspb = 2000000 ∧
    incrLoopSafe 2000000 5000000 1000 = false := by
  refine ⟨by decide, by decide, ?_⟩
  rw [incrLoopSafe.eq_def]
  rw [if_pos (by decide : (0:Int) < 2000000 ∧ (2000000:Int) < 5000000)]
  rw [show biasCorrect 2000000 1000 = 3315 from by decide]
  rw [show (5000000 : Int) - 2000000 = 3000000 from by decide]
  rw [incrLoopSafe.eq_def]
  rw [if_pos (by decide : (0:Int) < 2000000 ∧ (2000000:Int) < 3000000)]
  rw [show inLong (2000000 * 3315) = false from by decide]
  simp

/-- Claim C9 (amended): incrBeatDuration applies adjustments larger than
2,000,000,000 / beatDuration stepwise, each loop pass applying the same
rounded correction formula with exactly that bounded increment; for
adjustments of magnitude at most 2,000,000,000 / beatDuration (with
0 < beatDuration < 2^31) the single final application's products stay
inside 32-bit `long` range, the result is
beatDuration + (incr·beatDuration + 432000) / 864000, it is returned, and
tickAvg and tockAvg are set equal to it.  The stepping does not prevent
overflow on later passes for small beat durations (see the
counterexample). -/
theorem incrBeatDuration_amended (b : Bendulum) (incr : Int)
    (h0 : 0 < b.uspb) (hub : b.uspb < 2147483648)
    (hi1 : incr ≤ Int.tdiv 2000000000 b.uspb)
    (hi2 : -(Int.tdiv 2000000000 b.uspb) ≤ incr) :
    (∀ no i u : Int, 0 < no → no < i →
      incrLoop no i u = incrLoop no (i - no) (biasCorrect no u)) ∧
    incrBeatDuration b incr =
      some (b.uspb + Int.tdiv (incr * b.uspb + 432000) 864000,
        { b with
            uspb := b.uspb + Int.tdiv (incr * b.uspb + 432000) 864000
            tickAvg := b.uspb + Int.tdiv (incr * b.uspb + 432000) 864000
            tockAvg := b.uspb + Int.tdiv (incr * b.uspb + 432000) 864000 }) ∧
    -2147483648 ≤ incr * b.uspb ∧ incr * b.uspb + 432000 < 2147483648 := by
  have hu0 : (0 : Int) ≤ b.uspb := le_of_lt h0
  have hno_mul : Int.tdiv 2000000000 b.uspb * b.uspb ≤ 2000000000 := by
    rw [Int.tdiv_eq_ediv (by norm_num) hu0]
    have e1 := Int.ediv_add_emod 2000000000 b.uspb
    have e2 := Int.emod_nonneg 2000000000 (ne_of_gt h0)
    calc (2000000000 / b.uspb) * b.uspb = b.uspb * (2000000000 / b.uspb) := by ring
    _ ≤ 2000000000 := by omega
  have hprod_hi : incr * b.uspb ≤ 2000000000 :=
    le_trans (mul_le_mul_of_nonneg_right hi1 hu0) hno_mul
  have hprod_lo : -2000000000 ≤ incr * b.uspb := by
    have h1 : -(Int.tdiv 2000000000 b.uspb) * b.uspb ≤ incr * b.uspb :=
      mul_le_mul_of_nonneg_right hi2 hu0
    have h2 : -(Int.tdiv 2000000000 b.uspb) * b.uspb =
        -(Int.tdiv 2000000000 b.uspb * b.uspb) := by ring
    omega
  have hbc : biasCorrect incr b.uspb =
      b.uspb + Int.tdiv (incr * b.uspb + 432000) 864000 := by
    unfold biasCorrect
    rw [wrap32_eq_self (n := incr * b.uspb) (by omega) (by omega)]
    rw [wrap32_eq_self (n := incr * b.uspb + 432000) (by omega) (by omega)]
    have hd := tdiv_864000_bound (x := incr * b.uspb + 432000) (by omega) (by omega)
    rcases le_or_lt b.uspb 2000000000 with hsmall | hbig
    · exact wrap32_eq_self (by omega) (by omega)
    · have hno0 : Int.tdiv 2000000000 b.uspb = 0 :=
        Int.tdiv_eq_zero_of_lt (by norm_num) hbig
      have hincr0 : incr = 0 := by omega
      rw [hincr0]
      rw [show (0 : Int) * b.uspb + 432000 = 432000 from by ring]
      rw [show Int.tdiv 432000 864000 = 0 from by decide]
      rw [add_zero]
      exact wrap32_eq_self (by omega) (by omega)
  refine ⟨?_, ?_, by omega, by omega⟩
  · intro no i u h1 h2
    rw [incrLoop.eq_def]
    rw [if_pos ⟨h1, h2⟩]
  · simp only [incrBeatDuration]
    rw [if_neg (show ¬b.uspb = 0 by omega)]
    rw [incrLoop_no_iter (Or.inl hi1)]
    rw [hbc]

/-- Witness for C9 at beat duration 1,000,000 µs and adjustment +5 tenths
of a second per day: a single in-range application of the correction. -/
theorem incrBeatDuration_amended_witness :
    incrBeatDuration (setBeatDuration Bendulum.init 1000000) 5 =
      some ((setBeatDuration Bendulum.init 1000000).uspb +
          Int.tdiv (5 * (setBeatDuration Bendulum.init 1000000).uspb + 432000) 864000,
        { setBeatDuration Bendulum.init 1000000 with
            uspb := (setBeatDuration Bendulum.init 1000000).uspb +
              Int.tdiv (5 * (setBeatDuration Bendulum.init 1000000).uspb + 432000) 864000
            tickAvg := (setBeatDuration Bendulum.init 1000000).uspb +
              Int.tdiv (5 * (setBeatDuration Bendulum.init 1000000).uspb + 432000) 864000
            tockAvg := (setBeatDuration Bendulum.init 1000000).uspb +
              Int.tdiv (5 * (setBeatDuration Bendulum.init 1000000).uspb + 432000) 864000 }) :=
  (incrBeatDuration_amended (setBeatDuration Bendulum.init 1000000) 5
    (by decide) (by decide) (by decide) (by decide)).2.1
